import Mathlib

/-!
Verification of the resolution-and-relay engine of the runtime proxy
(`openhands/app_server/websocket_proxy/websocket_proxy_router.py`).

The Python source is shallowly embedded: pure helper functions become Lean
functions, the two route handlers become explicit state-passing functions over
an environment of lookup collaborators, and the outcome of each outbound I/O
step (the HTTP call, the backend WebSocket connect, the two pump loops) is a
parameter of the embedding, so that every control-flow branch of the source is
represented.  Strings are Lean `String`s (lists of unicode scalar values);
where the source manipulates bytes (URL percent-encoding of UTF-8), bytes are
`Nat` values below 256.
-/

namespace WsProxy

/-- Characters that `urllib.parse.quote` never escapes (Python `ALWAYS_SAFE`):
ASCII letters (codes 65-90 and 97-122), digits (48-57), and `_` `.` `-` `~`
(codes 95, 46, 45, 126). -/
def isAlwaysSafe (c : Char) : Bool :=
  (65 ≤ c.toNat ∧ c.toNat ≤ 90) ∨ (97 ≤ c.toNat ∧ c.toNat ≤ 122) ∨
    (48 ≤ c.toNat ∧ c.toNat ≤ 57) ∨
    c.toNat = 95 ∨ c.toNat = 46 ∨ c.toNat = 45 ∨ c.toNat = 126

/-- Uppercase hexadecimal digit for a value below 16, as used by
`urllib.parse.quote` when percent-encoding a byte. -/
def hexDigitChar (n : Nat) : Char :=
  if n < 10 then Char.ofNat (48 + n) else Char.ofNat (55 + n)

/-- Value of a hexadecimal digit character, `none` for non-hex characters. -/
def hexVal (c : Char) : Option Nat :=
  if c ≥ '0' ∧ c ≤ '9' then some (c.toNat - 48)
  else if c ≥ 'A' ∧ c ≤ 'F' then some (c.toNat - 55)
  else if c ≥ 'a' ∧ c ≤ 'f' then some (c.toNat - 87)
  else none

/-- UTF-8 encoding of one unicode scalar value, as the list of its bytes
(each a `Nat` below 256).  This is the encoding `str.encode('utf-8')` applies
before percent-escaping in `urllib.parse.quote`. -/
def utf8EncodeChar (c : Char) : List Nat :=
  let n := c.toNat
  if n < 128 then [n]
  else if n < 2048 then [192 + n / 64, 128 + n % 64]
  else if n < 65536 then [224 + n / 4096, 128 + (n / 64) % 64, 128 + n % 64]
  else [240 + n / 262144, 128 + (n / 4096) % 64, 128 + (n / 64) % 64, 128 + n % 64]

/-- UTF-8 bytes of a whole string. -/
def utf8Bytes (s : String) : List Nat :=
  (s.data.map utf8EncodeChar).flatten

/-- Percent-escape of one byte: `%` followed by two uppercase hex digits. -/
def percentEncodeByte (b : Nat) : List Char :=
  ['%', hexDigitChar (b / 16), hexDigitChar (b % 16)]

/-- Encoding of one character under `urllib.parse.quote_plus`: a space becomes
`+`, an always-safe character stands for itself, anything else is the
percent-escape of its UTF-8 bytes. -/
def quoteCharPlus (c : Char) : List Char :=
  if c = ' ' then ['+']
  else if isAlwaysSafe c then [c]
  else ((utf8EncodeChar c).map percentEncodeByte).flatten

/-- Character-list form of `urllib.parse.quote_plus`. -/
def quotePlusChars (cs : List Char) : List Char :=
  (cs.map quoteCharPlus).flatten

/-- Model of `urllib.parse.quote_plus` (the escaping used by
`urllib.parse.urlencode` for both keys and values). -/
def quote_plus (s : String) : String :=
  String.mk (quotePlusChars s.data)

/-- Model of `urllib.parse.urlencode` applied to a one-entry dict, as in
`urlencode({"session_api_key": session_api_key})` in the source. -/
def urlencodeSingle (k v : String) : String :=
  quote_plus k ++ "=" ++ quote_plus v

/-- Decoding of an `application/x-www-form-urlencoded` component to its bytes:
`+` stands for a space, `%XX` for the byte `XX`, any other character for its
UTF-8 bytes.  Malformed escapes are left as literal text, as in
`urllib.parse.unquote`. -/
def percentDecodeChars : List Char → List Nat
  | [] => []
  | '%' :: h1 :: h2 :: rest2 =>
    match hexVal h1, hexVal h2 with
    | some a, some b => (16 * a + b) :: percentDecodeChars rest2
    | _, _ => utf8EncodeChar '%' ++ percentDecodeChars (h1 :: h2 :: rest2)
  | c :: rest =>
    if c = '+' then 32 :: percentDecodeChars rest
    else utf8EncodeChar c ++ percentDecodeChars rest

/-- Query component of a URL: the text after the first `?`, `none` when the
URL has no `?` at all. -/
def queryChars : List Char → Option (List Char)
  | [] => none
  | c :: rest => if c = '?' then some rest else queryChars rest

/-- Split a character list on every occurrence of a separator character. -/
def splitOnChar (sep : Char) : List Char → List (List Char)
  | [] => [[]]
  | c :: rest =>
    if c = sep then [] :: splitOnChar sep rest
    else
      match splitOnChar sep rest with
      | [] => [[c]]
      | h :: t => (c :: h) :: t

/-- Split a query pair at its first `=`, as `urllib.parse.parse_qsl` does. -/
def splitFirstEq : List Char → List Char × Option (List Char)
  | [] => ([], none)
  | c :: rest =>
    if c = '=' then ([], some rest)
    else
      let p := splitFirstEq rest
      (c :: p.1, p.2)

/-- Parameters of a query string: pairs are separated by `&`, each pair is
split at its first `=`, and both sides are form-decoded to bytes.  This is the
reading of `urllib.parse.parse_qsl` (with blank values kept). -/
def parseQSL (q : List Char) : List (List Nat × List Nat) :=
  (splitOnChar '&' q).map fun pair =>
    let p := splitFirstEq pair
    (percentDecodeChars p.1, percentDecodeChars (p.2.getD []))

/-- Result of `urllib.parse.urlparse` restricted to the two fields the source
reads: the (lower-cased) scheme and the network location. -/
structure ParsedUrl where
  scheme : String
  netloc : String
deriving DecidableEq

/-- Split a character list at the first `://`, returning the text before it
and the text after it. -/
def findSchemeSplit : List Char → Option (List Char × List Char)
  | [] => none
  | c :: rest =>
    if c = ':' ∧ rest.take 2 = ['/', '/'] then some ([], rest.drop 2)
    else (findSchemeSplit rest).map fun p => (c :: p.1, p.2)

/-- Network location: the text up to the first `/`, `?` or `#`. -/
def takeNetloc : List Char → List Char
  | [] => []
  | c :: rest => if c = '/' ∨ c = '?' ∨ c = '#' then [] else c :: takeNetloc rest

/-- ASCII lower-casing of one character (scheme names are ASCII). -/
def toLowerChar (c : Char) : Char :=
  if 65 ≤ c.toNat ∧ c.toNat ≤ 90 then Char.ofNat (c.toNat + 32) else c

/-- ASCII lower-casing of a string. -/
def lowerString (s : String) : String :=
  String.mk (s.data.map toLowerChar)

/-- Model of `urllib.parse.urlparse` for absolute URLs with an authority
component (`scheme://netloc...`), the only shape the source feeds it: the
scheme is the lower-cased text before `://`, the netloc the text after it up
to the first `/`, `?` or `#`.  URLs without `://` parse to empty fields. -/
def urlparse (url : String) : ParsedUrl :=
  match findSchemeSplit url.data with
  | some p => ⟨lowerString (String.mk p.1), String.mk (takeNetloc p.2)⟩
  | none => ⟨"", ""⟩

/-- Fuel-driven worker for `removeOcc`; each step consumes at least one
character, so fuel equal to the input length never runs out. -/
def removeOccFuel (pat : List Char) : Nat → List Char → List Char
  | _, [] => []
  | 0, s => s
  | fuel + 1, c :: rest =>
    if pat.isPrefixOf (c :: rest) ∧ pat ≠ [] then
      removeOccFuel pat fuel (List.drop (pat.length - 1) rest)
    else c :: removeOccFuel pat fuel rest

/-- Remove every occurrence of a non-empty pattern from a character list,
scanning left to right (Python `str.replace(pattern, '')`). -/
def removeOcc (pat s : List Char) : List Char :=
  removeOccFuel pat s.length s

/-- Strip leading and trailing `{` and `}` characters
(Python `str.strip('{}')`). -/
def stripBraces (s : List Char) : List Char :=
  let isBrace := fun c => c = Char.ofNat 123 ∨ c = Char.ofNat 125
  ((s.dropWhile isBrace).reverse.dropWhile isBrace).reverse

/-- Numeric value of a list of hexadecimal digits, `none` when a character is
not a hexadecimal digit. -/
def hexListVal : List Char → Option Nat
  | [] => some 0
  | c :: rest =>
    match hexVal c, hexListVal rest with
    | some d, some v => some (d * 16 ^ rest.length + v)
    | _, _ => none

/-- Model of Python `uuid.UUID(hex=s)` acceptance: remove every `urn:` and
`uuid:` occurrence, strip surrounding braces, remove all hyphens, and require
exactly 32 hexadecimal digits; the result is the 128-bit value.  (The exotic
forms `int(s, 16)` additionally tolerates — embedded underscores, a sign, or
surrounding whitespace inside a 32-character string — are not modelled.) -/
def uuidParse (s : String) : Option Nat :=
  let cleaned :=
    (stripBraces (removeOcc "uuid:".data (removeOcc "urn:".data s.data))).filter
      (fun c => c ≠ '-')
  if cleaned.length = 32 then hexListVal cleaned else none

/-- Symbolic name of the primary agent service among a sandbox's exposed
URLs (the constant `AGENT_SERVER` from `sandbox_models.py`; its value is the
one in the spec's concrete case). -/
def AGENT_SERVER : String := "agent_server"

/-- One exposed network location of a sandbox (`ExposedUrl` in
`sandbox_models.py`): a symbolic name, a URL, and a port. -/
structure ExposedUrl where
  name : String
  url : String
  port : Nat
deriving DecidableEq

/-- The slice of `SandboxInfo` the router reads: the exposed locations and the
optional session credential.  A missing/empty `exposed_urls` collection is the
empty list (both are falsy in the source). -/
structure SandboxInfo where
  exposed_urls : List ExposedUrl
  session_api_key : Option String
deriving DecidableEq

/-- The slice of `AppConversationInfo` the router reads: the sandbox id. -/
structure AppConversationInfo where
  sandbox_id : String
deriving DecidableEq

/-- The two external lookup collaborators, as point-in-time snapshots:
`AppConversationInfoService.get_app_conversation_info` keyed by the parsed
128-bit conversation id, and `SandboxService.get_sandbox` keyed by sandbox
id. -/
structure Env where
  conversations : Nat → Option AppConversationInfo
  sandboxes : String → Option SandboxInfo

/-- One lookup performed against an external collaborator; the embeddings of
the route handlers return the list of lookups they performed, so that
"no lookup is attempted" is a provable statement. -/
inductive LookupEvent where
  | conv (id : Nat)
  | sandbox (id : String)
deriving DecidableEq

/-- Modelled from the spec: `replace_localhost_hostname_for_docker` (module
`openhands.app_server.utils.docker_utils`) is not among the sources, only its
callers are.  Spec section 4.2: "if the URL's host resolves to a loopback
address that is only meaningful inside a container's own namespace, substitute
the address the proxy process must use to reach sibling containers
(configuration-supplied default, e.g. a bridge-network gateway). No-op
otherwise."  The configuration is the `dockerGateway` parameter: `none` when
no in-container substitution applies (the situation of the spec's concrete
cases and of the unit tests, where `localhost` is left unchanged), `some gw`
when loopback hostnames must be rewritten to `gw`. -/
def replace_localhost_hostname_for_docker (dockerGateway : Option String)
    (url : String) : String :=
  match dockerGateway with
  | none => url
  | some gw => (url.replace "localhost" gw).replace "127.0.0.1" gw

/-- Embedding of `_get_agent_server_base_url`: the first exposed URL named
`AGENT_SERVER`, passed through the address translator; `none` when there is no
such location. -/
def _get_agent_server_base_url (dockerGateway : Option String) :
    List ExposedUrl → Option String
  | [] => none
  | e :: rest =>
    if e.name = AGENT_SERVER then
      some (replace_localhost_hostname_for_docker dockerGateway e.url)
    else _get_agent_server_base_url dockerGateway rest

/-- Truthiness of the optional session credential (`if session_api_key:` in
the source): present and non-empty. -/
def truthyKey : Option String → Bool
  | none => false
  | some k => k ≠ ""

/-- Embedding of `_get_agent_server_ws_url`: find the first exposed URL named
`AGENT_SERVER`, translate its address, map scheme `https` to `wss` and every
other scheme to `ws`, append `/sockets/events/{conversation_id}`, and append
`?session_api_key=...` (form-encoded) when the credential is truthy. -/
def _get_agent_server_ws_url (dockerGateway : Option String)
    (exposed_urls : List ExposedUrl) (conversation_id : String)
    (session_api_key : Option String) : Option String :=
  match exposed_urls with
  | [] => none
  | e :: rest =>
    if e.name = AGENT_SERVER then
      let url := replace_localhost_hostname_for_docker dockerGateway e.url
      let parsed := urlparse url
      let ws_scheme := if parsed.scheme = "https" then "wss" else "ws"
      let ws_url :=
        ws_scheme ++ "://" ++ parsed.netloc ++ "/sockets/events/" ++ conversation_id
      if truthyKey session_api_key then
        some (ws_url ++ "?" ++
          urlencodeSingle "session_api_key" (session_api_key.getD ""))
      else some ws_url
    else _get_agent_server_ws_url dockerGateway rest conversation_id session_api_key

/-- Embedding of `_HOP_BY_HOP_HEADERS`: the fixed block list of header names
never forwarded across the proxy, matched against lower-cased names. -/
def _HOP_BY_HOP_HEADERS : List String :=
  ["connection", "keep-alive", "proxy-authenticate", "proxy-authorization",
   "te", "trailers", "transfer-encoding", "upgrade", "host"]

/-- Insertion into an insertion-ordered string-keyed dictionary (Python
`d[k] = v`): an existing key keeps its position and takes the new value, a new
key goes to the end. -/
def dictInsert (d : List (String × String)) (k v : String) :
    List (String × String) :=
  if d.any (fun p => p.1 = k) then
    d.map fun p => if p.1 = k then (p.1, v) else p
  else d ++ [(k, v)]

/-- Dictionary built by the header-copy loops of `http_proxy`: each header
whose lower-cased name is not in the block list is inserted in order
(header names are ASCII, so ASCII lower-casing models `str.lower()`). -/
def copyHeadersFiltered (headers : List (String × String)) :
    List (String × String) :=
  headers.foldl
    (fun d p =>
      if lowerString p.1 ∈ _HOP_BY_HOP_HEADERS then d else dictInsert d p.1 p.2)
    []

/-- Embedding of `_get_sandbox_for_conversation`: parse the id as a UUID, look
up the conversation, look up its sandbox, and require a non-empty exposed-URL
collection; every failure returns `(none, none)`.  The second component of the
result is the list of lookups performed. -/
def _get_sandbox_for_conversation (env : Env) (conversation_id : String) :
    (Option SandboxInfo × Option String) × List LookupEvent :=
  match uuidParse conversation_id with
  | none => ((none, none), [])
  | some u =>
    match env.conversations u with
    | none => ((none, none), [LookupEvent.conv u])
    | some info =>
      let lks := [LookupEvent.conv u, LookupEvent.sandbox info.sandbox_id]
      match env.sandboxes info.sandbox_id with
      | none => ((none, none), lks)
      | some sandbox =>
        if sandbox.exposed_urls.isEmpty then ((none, none), lks)
        else ((some sandbox, sandbox.session_api_key), lks)

/-- The outbound HTTP request `http_proxy` issues: method, target URL, headers
after the copy loop, and the body (`none` when the inbound body is empty, as
`content=body if body else None`). -/
structure OutboundRequest where
  method : String
  url : String
  headers : List (String × String)
  body : Option (List Nat)
  timeout : Nat
deriving DecidableEq

/-- Outcome of the outbound call `httpx_client.request(...)`: a response, or
one of the transport faults the source catches (`httpx.TimeoutException`,
`httpx.ConnectError`, any other exception). -/
inductive OutboundResult where
  | success (status : Nat) (headers : List (String × String)) (body : String)
  | timeout
  | connectError
  | otherFault
deriving DecidableEq

/-- An HTTP response returned to the inbound caller. -/
structure HttpResponse where
  status : Nat
  headers : List (String × String)
  body : String
deriving DecidableEq

/-- Full record of one `http_proxy` run: the response, the outbound request
that was issued (`none` when resolution failed before any outbound call), and
the lookups performed. -/
structure ProxyRun where
  response : HttpResponse
  outboundRequest : Option OutboundRequest
  lookups : List LookupEvent
deriving DecidableEq

/-- Strip trailing `/` characters (Python `str.rstrip('/')`). -/
def rstripSlash (s : String) : String :=
  String.mk (((s.data.reverse).dropWhile (fun c => c = '/')).reverse)

/-- Embedding of the `http_proxy` route handler.  The behaviour of the shared
HTTP client is the parameter `outbound`; every branch of the source — the 404
for an unresolved conversation, the 503 for a missing agent-server location,
the header policy, and the fault mapping of the `try` block — is reproduced.
The function is total: no outbound fault propagates to the caller. -/
def http_proxy (env : Env) (dockerGateway : Option String)
    (outbound : OutboundRequest → OutboundResult)
    (method : String) (conversation_id : String) (path : String) (query : String)
    (reqHeaders : List (String × String)) (body : List Nat) : ProxyRun :=
  let r := _get_sandbox_for_conversation env conversation_id
  match r.1.1 with
  | none =>
    ⟨⟨404, [], "Conversation not found or sandbox not running"⟩, none, r.2⟩
  | some sandbox =>
    match _get_agent_server_base_url dockerGateway sandbox.exposed_urls with
    | none => ⟨⟨503, [], "Agent server not available"⟩, none, r.2⟩
    | some base_url =>
      let target_url :=
        rstripSlash base_url ++ "/" ++ path ++
          (if query = "" then "" else "?" ++ query)
      let fw := copyHeadersFiltered reqHeaders
      let forward_headers :=
        if truthyKey r.1.2 then dictInsert fw "X-Session-API-Key" (r.1.2.getD "")
        else fw
      let req : OutboundRequest :=
        ⟨method, target_url, forward_headers,
          if body = [] then none else some body, 60⟩
      match outbound req with
      | .success st hs b => ⟨⟨st, copyHeadersFiltered hs, b⟩, some req, r.2⟩
      | .timeout => ⟨⟨504, [], "Gateway timeout"⟩, some req, r.2⟩
      | .connectError => ⟨⟨503, [], "Agent server unavailable"⟩, some req, r.2⟩
      | .otherFault => ⟨⟨500, [], "Internal proxy error"⟩, some req, r.2⟩

/-- One result of `await client_ws.receive_text()` in the client-to-server
pump: a text message, a `WebSocketDisconnect`, or some other exception. -/
inductive ClientReadResult where
  | text (s : String)
  | disconnect
  | failure
deriving DecidableEq

/-- The terminal event a client read script eventually produces. -/
def firstTerminal : List ClientReadResult → Option ClientReadResult
  | [] => none
  | .text _ :: rest => firstTerminal rest
  | ev :: _ => some ev

/-- Embedding of `_proxy_client_to_server`: repeatedly read one message from
the client and forward it to the backend.  `WebSocketDisconnect` and every
other `Exception` are caught inside the coroutine, so the pump completes
normally; an exhausted script means the pump is still awaiting a read, so the
result is `none`.  The result carries the forwarded messages. -/
def _proxy_client_to_server : List ClientReadResult → Option (List String)
  | [] => none
  | .text s :: rest => (_proxy_client_to_server rest).map fun msgs => s :: msgs
  | .disconnect :: _ => some []
  | .failure :: _ => some []

/-- Status of one asyncio task of the relay. -/
structure TaskState where
  ended : Bool
  cancelled : Bool
deriving DecidableEq

/-- Exceptions distinguished by the relay's handlers. -/
inductive Exc where
  | cancelledError
  | connectionRefused
  | otherError
deriving DecidableEq

/-- Semantics of `task.cancel()` followed by `await task` on an asyncio task:
a task that already ended returns normally; a still-running pump observes the
cancellation at its next suspension point — `asyncio.CancelledError` derives
from `BaseException`, so the pump's `except Exception` clauses do not swallow
it — and the await re-raises `CancelledError`. -/
def cancelAndAwait (t : TaskState) : TaskState × Except Exc Unit :=
  if t.ended then (t, Except.ok ())
  else (⟨true, true⟩, Except.error Exc.cancelledError)

/-- The `try: await task / except asyncio.CancelledError: pass` wrapper of the
teardown loop: a cancellation signal is suppressed, everything else
escapes. -/
def suppressCancelled : Except Exc Unit → Option Exc
  | Except.error Exc.cancelledError => none
  | Except.error e => some e
  | Except.ok _ => none

/-- States of the streaming session, following the spec's state machine. -/
inductive SessionState where
  | Relaying
  | Closed
deriving DecidableEq

/-- Final record of the relaying phase: the reached state, both task states,
the messages the client pump forwarded, and the fault (if any) escaping the
relay block. -/
structure RelayFinal where
  state : SessionState
  clientTask : TaskState
  serverTask : TaskState
  forwarded : List String
  fault : Option Exc
deriving DecidableEq

/-- Embedding of the `Relaying` block of `_websocket_proxy_impl` (the
`asyncio.wait(..., return_when=FIRST_COMPLETED)` race and the teardown loop)
for a session whose client pump finishes first: the client script runs to its
terminal event, `asyncio.wait` returns with the client task in `done` and the
server pump in `pending`, and the teardown loop cancels the pending task,
awaits it and suppresses its `CancelledError`.  A script with no terminal
event leaves the race undecided by the client side: result `none`. -/
def _websocket_proxy_relay (clientReads : List ClientReadResult) :
    Option RelayFinal :=
  match _proxy_client_to_server clientReads with
  | none => none
  | some msgs =>
    let clientTask : TaskState := ⟨true, false⟩
    let serverPump : TaskState := ⟨false, false⟩
    let res := cancelAndAwait serverPump
    some ⟨SessionState.Closed, clientTask, res.1, msgs, suppressCancelled res.2⟩

/-- Behaviour of the outbound `websockets.connect` and of the subsequent race:
the connect may be refused (`ConnectionRefusedError`), fail otherwise, or
succeed, in which case the client read script drives the session. -/
inductive ConnectBehavior where
  | refused
  | fault
  | connected (clientReads : List ClientReadResult)

/-- Observable outcome of one WebSocket handler run: an explicit
`websocket.close(code)` before returning, a normally finished relay (the
framework closes the accepted socket), or a relay whose race was not decided
by the client pump (outside this embedding's scope). -/
inductive WsOutcome where
  | closed (code : Nat)
  | relayFinished (final : RelayFinal)
  | pendingRace
deriving DecidableEq

/-- Full record of one WebSocket handler run. -/
structure WsRun where
  outcome : WsOutcome
  accepted : Bool
  lookups : List LookupEvent
deriving DecidableEq

/-- Embedding of `_websocket_proxy_impl`: validate the conversation id, look
up the conversation (close 1008 on failure), look up the sandbox and require
exposed URLs (close 1013 on failure), build the agent-server WebSocket URL
(close 1011 when absent), accept the client, then connect outbound — refusal
closes 1013, any other connect fault closes 1011, success runs the relay. -/
def _websocket_proxy_impl (env : Env) (dockerGateway : Option String)
    (connect : ConnectBehavior) (conversation_id : String) : WsRun :=
  match uuidParse conversation_id with
  | none => ⟨WsOutcome.closed 1008, false, []⟩
  | some u =>
    match env.conversations u with
    | none => ⟨WsOutcome.closed 1008, false, [LookupEvent.conv u]⟩
    | some info =>
      let lks := [LookupEvent.conv u, LookupEvent.sandbox info.sandbox_id]
      match env.sandboxes info.sandbox_id with
      | none => ⟨WsOutcome.closed 1013, false, lks⟩
      | some sandbox =>
        if sandbox.exposed_urls.isEmpty then ⟨WsOutcome.closed 1013, false, lks⟩
        else
          match _get_agent_server_ws_url dockerGateway sandbox.exposed_urls
              conversation_id sandbox.session_api_key with
          | none => ⟨WsOutcome.closed 1011, false, lks⟩
          | some _ws_url =>
            match connect with
            | .refused => ⟨WsOutcome.closed 1013, true, lks⟩
            | .fault => ⟨WsOutcome.closed 1011, true, lks⟩
            | .connected clientReads =>
              match _websocket_proxy_relay clientReads with
              | some final => ⟨WsOutcome.relayFinished final, true, lks⟩
              | none => ⟨WsOutcome.pendingRace, true, lks⟩

/-- Embedding of the `websocket_proxy_via_runtime` route handler: the two path
parameters must match, otherwise the socket is closed with 1008 before any
service is consulted. -/
def websocket_proxy_via_runtime (env : Env) (dockerGateway : Option String)
    (connect : ConnectBehavior) (runtime_conversation_id : String)
    (conversation_id : String) : WsRun :=
  if runtime_conversation_id ≠ conversation_id then
    ⟨WsOutcome.closed 1008, false, []⟩
  else _websocket_proxy_impl env dockerGateway connect conversation_id

/-! Lemmas about the form-encoding primitives. -/

/-- Unicode scalar values are below 1114112. -/
theorem char_toNat_lt (c : Char) : c.toNat < 1114112 := by
  rcases c.valid with h | h
  · exact Nat.lt_trans h (by norm_num)
  · exact h.2

/-- Every UTF-8 byte is below 256. -/
theorem utf8EncodeChar_lt (c : Char) : ∀ b ∈ utf8EncodeChar c, b < 256 := by
  have hc := char_toNat_lt c
  intro b hb
  simp only [utf8EncodeChar] at hb
  split_ifs at hb <;> simp at hb <;> omega

/-- Decoding a hex digit character recovers its value. -/
theorem hexVal_hexDigitChar : ∀ n < 16, hexVal (hexDigitChar n) = some n := by
  decide

/-- Hex digit characters are always-safe characters. -/
theorem isAlwaysSafe_hexDigitChar : ∀ n < 16, isAlwaysSafe (hexDigitChar n) = true := by
  decide

/-- An always-safe character is ASCII and is neither `+` nor `%`. -/
theorem isAlwaysSafe_facts (c : Char) (h : isAlwaysSafe c = true) :
    c.toNat < 128 ∧ c ≠ '+' ∧ c ≠ '%' := by
  simp only [isAlwaysSafe, decide_eq_true_eq] at h
  have h43 : ('+' : Char).toNat = 43 := by decide
  have h37 : ('%' : Char).toNat = 37 := by decide
  refine ⟨?_, ?_, ?_⟩
  · rcases h with h|h|h|h|h|h|h <;> omega
  · intro he
    rw [he, h43] at h
    rcases h with h|h|h|h|h|h|h <;> omega
  · intro he
    rw [he, h37] at h
    rcases h with h|h|h|h|h|h|h <;> omega

/-- Unfolding of the decoder at a head character other than `%`. -/
theorem percentDecodeChars_cons_ne (c : Char) (rest : List Char) (hp : c ≠ '%') :
    percentDecodeChars (c :: rest) =
      if c = '+' then 32 :: percentDecodeChars rest
      else utf8EncodeChar c ++ percentDecodeChars rest := by
  rcases rest with _ | ⟨h1, _ | ⟨h2, t2⟩⟩ <;> simp [percentDecodeChars, hp]

/-- Unfolding of the decoder at a well-formed percent escape. -/
theorem percentDecodeChars_pct (h1 h2 : Char) (t : List Char) (a b : Nat)
    (ha : hexVal h1 = some a) (hb : hexVal h2 = some b) :
    percentDecodeChars ('%' :: h1 :: h2 :: t) =
      (16 * a + b) :: percentDecodeChars t := by
  simp [percentDecodeChars, ha, hb]

/-- Decoding the percent escapes of a byte list recovers the bytes. -/
theorem percentDecode_percentBytes (bs : List Nat) (rest : List Char)
    (h : ∀ b ∈ bs, b < 256) :
    percentDecodeChars ((bs.map percentEncodeByte).flatten ++ rest) =
      bs ++ percentDecodeChars rest := by
  induction bs with
  | nil => simp
  | cons b bs ih =>
    have hb : b < 256 := h b (by simp)
    simp only [List.map_cons, List.flatten_cons, percentEncodeByte,
      List.append_assoc, List.cons_append, List.nil_append]
    rw [percentDecodeChars_pct _ _ _ _ _ (hexVal_hexDigitChar _ (by omega))
      (hexVal_hexDigitChar _ (by omega))]
    rw [ih (fun x hx => h x (by simp [hx]))]
    have hdm : 16 * (b / 16) + b % 16 = b := by omega
    rw [hdm]

/-- Decoding the `quote_plus` encoding of one character yields its UTF-8
bytes, with decoding continuing past it. -/
theorem percentDecode_quoteCharPlus (c : Char) (rest : List Char) :
    percentDecodeChars (quoteCharPlus c ++ rest) =
      utf8EncodeChar c ++ percentDecodeChars rest := by
  by_cases hsp : c = ' '
  · subst hsp
    rw [show quoteCharPlus ' ' = ['+'] from rfl]
    rw [List.cons_append, List.nil_append,
      percentDecodeChars_cons_ne _ _ (by decide)]
    simp [utf8EncodeChar]
  · by_cases hsafe : isAlwaysSafe c
    · obtain ⟨-, hplus, hpct⟩ := isAlwaysSafe_facts c hsafe
      rw [show quoteCharPlus c = [c] by simp [quoteCharPlus, hsp, hsafe]]
      rw [List.cons_append, List.nil_append,
        percentDecodeChars_cons_ne _ _ hpct, if_neg hplus]
    · rw [show quoteCharPlus c =
        ((utf8EncodeChar c).map percentEncodeByte).flatten by
          simp [quoteCharPlus, hsp, hsafe]]
      exact percentDecode_percentBytes _ _ (utf8EncodeChar_lt c)

/-- Round trip: decoding the `quote_plus` encoding of a character list yields
the UTF-8 bytes of the original. -/
theorem percentDecode_quotePlusChars (cs : List Char) :
    percentDecodeChars (quotePlusChars cs) = (cs.map utf8EncodeChar).flatten := by
  induction cs with
  | nil => rfl
  | cons c cs ih =>
    rw [show quotePlusChars (c :: cs) = quoteCharPlus c ++ quotePlusChars cs by
      simp [quotePlusChars]]
    rw [percentDecode_quoteCharPlus, ih]
    simp

/-- Characters of a `quote_plus` encoding are `+`, `%` or always-safe. -/
theorem mem_quoteCharPlus (c d : Char) (hd : d ∈ quoteCharPlus c) :
    d = '+' ∨ d = '%' ∨ isAlwaysSafe d = true := by
  unfold quoteCharPlus at hd
  split_ifs at hd with h1 h2
  · simp at hd
    exact Or.inl hd
  · simp at hd
    subst hd
    exact Or.inr (Or.inr h2)
  · simp only [List.mem_flatten, List.mem_map] at hd
    obtain ⟨l, ⟨b, hb, rfl⟩, hdl⟩ := hd
    have hblt : b < 256 := utf8EncodeChar_lt c b hb
    simp only [percentEncodeByte, List.mem_cons, List.not_mem_nil, or_false] at hdl
    rcases hdl with rfl | rfl | rfl
    · exact Or.inr (Or.inl rfl)
    · exact Or.inr (Or.inr (isAlwaysSafe_hexDigitChar _ (by omega)))
    · exact Or.inr (Or.inr (isAlwaysSafe_hexDigitChar _ (by omega)))

/-- A `quote_plus` encoding never contains `&`, `=` or `?`. -/
theorem quotePlusChars_no_special (cs : List Char) :
    ∀ d ∈ quotePlusChars cs, d ≠ '&' ∧ d ≠ '=' ∧ d ≠ '?' := by
  intro d hd
  simp only [quotePlusChars, List.mem_flatten, List.mem_map] at hd
  obtain ⟨l, ⟨c, _, rfl⟩, hdl⟩ := hd
  rcases mem_quoteCharPlus c d hdl with rfl | rfl | hsafe
  · exact ⟨by decide, by decide, by decide⟩
  · exact ⟨by decide, by decide, by decide⟩
  · refine ⟨?_, ?_, ?_⟩ <;> intro he <;> subst he <;>
      exact absurd hsafe (by decide)

/-! Lemmas about query and URL splitting. -/

/-- The query of a string with no `?` is absent. -/
theorem queryChars_of_no_qmark (xs : List Char) (h : '?' ∉ xs) :
    queryChars xs = none := by
  induction xs with
  | nil => rfl
  | cons c rest ih =>
    have hc : c ≠ '?' := fun he => h (he ▸ List.mem_cons_self c rest)
    simp only [queryChars, if_neg hc]
    exact ih (fun hm => h (List.mem_cons_of_mem c hm))

/-- The query of `base ++ "?" ++ q` with `?`-free `base` is `q`. -/
theorem queryChars_append (xs q : List Char) (h : '?' ∉ xs) :
    queryChars (xs ++ '?' :: q) = some q := by
  induction xs with
  | nil => simp [queryChars]
  | cons c rest ih =>
    have hc : c ≠ '?' := fun he => h (he ▸ List.mem_cons_self c rest)
    simp only [List.cons_append, queryChars, if_neg hc]
    exact ih (fun hm => h (List.mem_cons_of_mem c hm))

/-- Splitting a separator-free list is the identity. -/
theorem splitOnChar_of_not_mem (sep : Char) (xs : List Char) (h : sep ∉ xs) :
    splitOnChar sep xs = [xs] := by
  induction xs with
  | nil => rfl
  | cons c rest ih =>
    have hc : c ≠ sep := fun he => h (he ▸ List.mem_cons_self c rest)
    rw [splitOnChar, if_neg hc, ih (fun hm => h (List.mem_cons_of_mem c hm))]

/-- Splitting `k ++ "=" ++ v` at the first `=` with `=`-free `k`. -/
theorem splitFirstEq_append (k v : List Char) (h : '=' ∉ k) :
    splitFirstEq (k ++ '=' :: v) = (k, some v) := by
  induction k with
  | nil => simp [splitFirstEq]
  | cons c rest ih =>
    have hc : c ≠ '=' := fun he => h (he ▸ List.mem_cons_self c rest)
    rw [List.cons_append, splitFirstEq, if_neg hc,
      ih (fun hm => h (List.mem_cons_of_mem c hm))]

/-- Splitting `scheme ++ "://" ++ rest` at the first `://` with `:`-free
scheme text. -/
theorem findSchemeSplit_append (sch rest : List Char) (h : ':' ∉ sch) :
    findSchemeSplit (sch ++ ':' :: '/' :: '/' :: rest) = some (sch, rest) := by
  induction sch with
  | nil => simp [findSchemeSplit]
  | cons c cs ih =>
    have hc : c ≠ ':' := fun he => h (he ▸ List.mem_cons_self c cs)
    rw [List.cons_append, findSchemeSplit,
      if_neg (fun hand => hc hand.1),
      ih (fun hm => h (List.mem_cons_of_mem c hm))]
    rfl

/-- A delimiter-free netloc is taken whole. -/
theorem takeNetloc_of_clean (nl : List Char)
    (h : ∀ c ∈ nl, ¬(c = '/' ∨ c = '?' ∨ c = '#')) : takeNetloc nl = nl := by
  induction nl with
  | nil => rfl
  | cons c rest ih =>
    rw [takeNetloc, if_neg (h c (List.mem_cons_self c rest)),
      ih (fun x hx => h x (List.mem_cons_of_mem c hx))]

/-- Parsing `scheme ++ "://" ++ netloc` recovers the lower-cased scheme and
the netloc, when the scheme text has no `:` and the netloc no delimiter. -/
theorem urlparse_parts (scheme netloc : String)
    (hsch : ':' ∉ scheme.data)
    (hnl : ∀ c ∈ netloc.data, ¬(c = '/' ∨ c = '?' ∨ c = '#')) :
    urlparse (scheme ++ "://" ++ netloc) = ⟨lowerString scheme, netloc⟩ := by
  have hdata : (scheme ++ "://" ++ netloc).data =
      scheme.data ++ ':' :: '/' :: '/' :: netloc.data := by
    simp [String.data_append]
  rw [urlparse, hdata, findSchemeSplit_append _ _ hsch]
  simp only [Option.map]
  rw [takeNetloc_of_clean _ hnl]

/-! Lemmas about the URL builders. -/

/-- The WebSocket URL builder skips locations not named `AGENT_SERVER`. -/
theorem ws_url_skip (gw : Option String) (pre rest : List ExposedUrl)
    (cid : String) (key : Option String)
    (hpre : ∀ x ∈ pre, x.name ≠ AGENT_SERVER) :
    _get_agent_server_ws_url gw (pre ++ rest) cid key =
      _get_agent_server_ws_url gw rest cid key := by
  induction pre with
  | nil => rfl
  | cons e pre ih =>
    rw [List.cons_append, _get_agent_server_ws_url,
      if_neg (hpre e (List.mem_cons_self e pre))]
    exact ih (fun x hx => hpre x (List.mem_cons_of_mem e hx))

/-- The WebSocket URL builder returns `none` exactly when no location is
named `AGENT_SERVER`. -/
theorem ws_url_none (gw : Option String) (urls : List ExposedUrl)
    (cid : String) (key : Option String)
    (h : ∀ x ∈ urls, x.name ≠ AGENT_SERVER) :
    _get_agent_server_ws_url gw urls cid key = none := by
  induction urls with
  | nil => rfl
  | cons e rest ih =>
    rw [_get_agent_server_ws_url, if_neg (h e (List.mem_cons_self e rest))]
    exact ih (fun x hx => h x (List.mem_cons_of_mem e hx))

/-- Value of the WebSocket URL builder at the first `AGENT_SERVER` location,
with no docker-gateway substitution configured, for a URL of the shape
`scheme://netloc`. -/
theorem ws_url_value (pre post : List ExposedUrl) (e : ExposedUrl)
    (scheme netloc cid : String) (key : Option String)
    (hpre : ∀ x ∈ pre, x.name ≠ AGENT_SERVER)
    (hname : e.name = AGENT_SERVER)
    (hurl : e.url = scheme ++ "://" ++ netloc)
    (hsch : ':' ∉ scheme.data)
    (hnl : ∀ c ∈ netloc.data, ¬(c = '/' ∨ c = '?' ∨ c = '#')) :
    _get_agent_server_ws_url none (pre ++ e :: post) cid key =
      some
        (let ws_scheme := if lowerString scheme = "https" then "wss" else "ws"
         let ws_url := ws_scheme ++ "://" ++ netloc ++ "/sockets/events/" ++ cid
         if truthyKey key then
           ws_url ++ "?" ++ urlencodeSingle "session_api_key" (key.getD "")
         else ws_url) := by
  rw [ws_url_skip none pre _ cid key hpre, _get_agent_server_ws_url,
    if_pos hname]
  simp only [replace_localhost_hostname_for_docker, hurl,
    urlparse_parts scheme netloc hsch hnl]
  split <;> rfl

/-- The base part of a built streaming URL contains no `?`. -/
theorem no_qmark_ws_url (ws_scheme netloc cid : String)
    (hws : '?' ∉ ws_scheme.data)
    (hnl : ∀ c ∈ netloc.data, ¬(c = '/' ∨ c = '?' ∨ c = '#'))
    (hcid : '?' ∉ cid.data) :
    '?' ∉ (ws_scheme ++ "://" ++ netloc ++ "/sockets/events/" ++ cid).data := by
  intro hm
  simp only [String.data_append, List.mem_append] at hm
  rcases hm with ((((hm | hm) | hm) | hm) | hm)
  · exact hws hm
  · exact absurd hm (by decide)
  · exact hnl _ hm (Or.inr (Or.inl rfl))
  · exact absurd hm (by decide)
  · exact hcid hm

/-- Parsing the query produced by `urlencode({"session_api_key": k})` yields
exactly one parameter, named `session_api_key`, whose decoded value is the
UTF-8 byte sequence of `k`. -/
theorem parseQSL_urlencodeSingle (k : String) :
    parseQSL (urlencodeSingle "session_api_key" k).data =
      [(utf8Bytes "session_api_key", utf8Bytes k)] := by
  have hdata : (urlencodeSingle "session_api_key" k).data =
      quotePlusChars "session_api_key".data ++ '=' :: quotePlusChars k.data := by
    simp [urlencodeSingle, quote_plus, String.data_append]
  rw [hdata]
  have hamp : '&' ∉
      quotePlusChars "session_api_key".data ++ '=' :: quotePlusChars k.data := by
    intro hm
    rcases List.mem_append.mp hm with hm | hm
    · exact (quotePlusChars_no_special _ _ hm).1 rfl
    · rcases List.mem_cons.mp hm with hm | hm
      · exact absurd hm (by decide)
      · exact (quotePlusChars_no_special _ _ hm).1 rfl
  rw [parseQSL, splitOnChar_of_not_mem _ _ hamp]
  simp only [List.map]
  rw [splitFirstEq_append _ _
    (fun hm => (quotePlusChars_no_special _ _ hm).2.1 rfl)]
  simp only [Option.getD]
  rw [percentDecode_quotePlusChars, percentDecode_quotePlusChars]
  rfl

/-! Lemmas about the header dictionaries. -/

/-- Keys after a dictionary insertion: the old keys plus the inserted one. -/
theorem mem_keys_dictInsert (d : List (String × String)) (k v n : String)
    (h : n ∈ (dictInsert d k v).map Prod.fst) :
    n ∈ d.map Prod.fst ∨ n = k := by
  unfold dictInsert at h
  split_ifs at h with hd
  · left
    simp only [List.map_map, List.mem_map, Function.comp] at h
    obtain ⟨p0, hp0, he0⟩ := h
    simp only [List.mem_map]
    refine ⟨p0, hp0, ?_⟩
    rw [← he0]
    split <;> rfl
  · rw [List.map_append] at h
    rcases List.mem_append.mp h with h | h
    · exact Or.inl h
    · simp only [List.map_cons, List.map_nil, List.mem_singleton] at h
      exact Or.inr h

/-- Invariant of the filtering copy loop: a name whose lower-casing is in the
block list never appears among the accumulated keys. -/
theorem copyHeaders_foldl_blocked (hs : List (String × String))
    (d : List (String × String)) (n : String)
    (hn : lowerString n ∈ _HOP_BY_HOP_HEADERS)
    (hd : n ∉ d.map Prod.fst) :
    n ∉ (hs.foldl
      (fun d p =>
        if lowerString p.1 ∈ _HOP_BY_HOP_HEADERS then d else dictInsert d p.1 p.2)
      d).map Prod.fst := by
  induction hs generalizing d with
  | nil => exact hd
  | cons p hs ih =>
    rw [List.foldl_cons]
    by_cases hp : lowerString p.1 ∈ _HOP_BY_HOP_HEADERS
    · rw [if_pos hp]
      exact ih d hd
    · rw [if_neg hp]
      apply ih
      intro hmem
      rcases mem_keys_dictInsert d p.1 p.2 n hmem with hcase | hcase
      · exact hd hcase
      · rw [← hcase] at hp
        exact hp hn

/-- A blocked name is absent from the keys of a filtered header copy. -/
theorem copyHeadersFiltered_blocked (hs : List (String × String)) (n : String)
    (hn : lowerString n ∈ _HOP_BY_HOP_HEADERS) :
    n ∉ (copyHeadersFiltered hs).map Prod.fst :=
  copyHeaders_foldl_blocked hs [] n hn (by simp)

/-- A blocked name is absent from the outbound header dictionary even after
the credential header is injected (its name is not in the block list). -/
theorem forward_headers_blocked (hs : List (String × String))
    (key : Option String) (n : String)
    (hn : lowerString n ∈ _HOP_BY_HOP_HEADERS) :
    n ∉ ((if truthyKey key then
        dictInsert (copyHeadersFiltered hs) "X-Session-API-Key" (key.getD "")
      else copyHeadersFiltered hs)).map Prod.fst := by
  split_ifs with ht
  · intro hmem
    rcases mem_keys_dictInsert _ _ _ _ hmem with hcase | hcase
    · exact copyHeadersFiltered_blocked hs n hn hcase
    · rw [hcase] at hn
      exact absurd hn (by decide)
  · exact copyHeadersFiltered_blocked hs n hn

/-! Concrete material for witnesses and counterexamples. -/

/-- A fixed well-formed conversation id string (UUID value 0). -/
def cid0 : String := "00000000-0000-0000-0000-000000000000"

/-- Environment where conversation 0 exists and its sandbox has one
agent-server location. -/
def envOk : Env :=
  ⟨fun u => if u = 0 then some ⟨"sb1"⟩ else none,
   fun i => if i = "sb1" then
       some ⟨[⟨"agent_server", "http://h:1", 1⟩], some "k"⟩
     else none⟩

/-- Environment where conversation 0 exists but its sandbox is absent. -/
def envNoSb : Env :=
  ⟨fun u => if u = 0 then some ⟨"sb1"⟩ else none, fun _ => none⟩

/-- Environment where conversation 0 exists and its sandbox has an empty
exposed-location set. -/
def envEmptyUrls : Env :=
  ⟨fun u => if u = 0 then some ⟨"sb1"⟩ else none,
   fun i => if i = "sb1" then some ⟨[], some "k"⟩ else none⟩

/-- Environment where conversation 0 exists and its sandbox has exposed
locations but none named `agent_server`. -/
def envNoAgent : Env :=
  ⟨fun u => if u = 0 then some ⟨"sb1"⟩ else none,
   fun i => if i = "sb1" then
       some ⟨[⟨"vscode", "http://h:1", 1⟩], some "k"⟩
     else none⟩

/-! Claim theorems. -/

/-- C3: for every exposed location named for the primary agent service (the
first such location, with no docker-gateway substitution configured), the
streaming-URL builder maps an `http://host:port` base URL to exactly
`ws://host:port/sockets/events/{conversationId}` and an `https://host:port`
base URL to exactly `wss://host:port/sockets/events/{conversationId}`. -/
theorem C3_scheme_mapping (pre post : List ExposedUrl) (e : ExposedUrl)
    (netloc cid : String)
    (hpre : ∀ x ∈ pre, x.name ≠ AGENT_SERVER)
    (hname : e.name = AGENT_SERVER)
    (hnl : ∀ c ∈ netloc.data, ¬(c = '/' ∨ c = '?' ∨ c = '#')) :
    (e.url = "http://" ++ netloc →
      _get_agent_server_ws_url none (pre ++ e :: post) cid none =
        some ("ws://" ++ netloc ++ "/sockets/events/" ++ cid)) ∧
    (e.url = "https://" ++ netloc →
      _get_agent_server_ws_url none (pre ++ e :: post) cid none =
        some ("wss://" ++ netloc ++ "/sockets/events/" ++ cid)) := by
  constructor
  · intro hurl
    rw [ws_url_value pre post e "http" netloc cid none hpre hname hurl
      (by decide) hnl]
    rfl
  · intro hurl
    rw [ws_url_value pre post e "https" netloc cid none hpre hname hurl
      (by decide) hnl]
    rfl

/-- Witness for C3: the spec's concrete location `http://localhost:33545`
with conversation id `abc123`, and its https variant. -/
theorem C3_scheme_mapping_witness :
    _get_agent_server_ws_url none
        [⟨"agent_server", "http://localhost:33545", 33545⟩] "abc123" none =
      some ("ws://" ++ "localhost:33545" ++ "/sockets/events/" ++ "abc123") ∧
    _get_agent_server_ws_url none
        [⟨"agent_server", "https://localhost:33545", 33545⟩] "abc123" none =
      some ("wss://" ++ "localhost:33545" ++ "/sockets/events/" ++ "abc123") := by
  constructor
  · exact (C3_scheme_mapping [] [] ⟨"agent_server", "http://localhost:33545", 33545⟩
      "localhost:33545" "abc123" (by simp) rfl (by decide)).1 rfl
  · exact (C3_scheme_mapping [] [] ⟨"agent_server", "https://localhost:33545", 33545⟩
      "localhost:33545" "abc123" (by simp) rfl (by decide)).2 rfl

/-- C10: for every exposed-location base URL whose (parsed, lower-cased)
scheme is not `https` — for example `ftp://host:port` — the streaming-URL
builder still returns a URL with scheme `ws` rather than rejecting the
input. -/
theorem C10_non_https_scheme (pre post : List ExposedUrl) (e : ExposedUrl)
    (scheme netloc cid : String)
    (hpre : ∀ x ∈ pre, x.name ≠ AGENT_SERVER)
    (hname : e.name = AGENT_SERVER)
    (hurl : e.url = scheme ++ "://" ++ netloc)
    (hsch : ':' ∉ scheme.data)
    (hlow : lowerString scheme ≠ "https")
    (hnl : ∀ c ∈ netloc.data, ¬(c = '/' ∨ c = '?' ∨ c = '#')) :
    _get_agent_server_ws_url none (pre ++ e :: post) cid none =
      some ("ws://" ++ netloc ++ "/sockets/events/" ++ cid) := by
  rw [ws_url_value pre post e scheme netloc cid none hpre hname hurl hsch hnl]
  simp only [if_neg hlow]
  rfl

/-- Witness for C10: the scheme `ftp` yields a `ws://` streaming URL. -/
theorem C10_non_https_scheme_witness :
    _get_agent_server_ws_url none [⟨"agent_server", "ftp://host:21", 21⟩]
        "abc123" none =
      some ("ws://" ++ "host:21" ++ "/sockets/events/" ++ "abc123") :=
  C10_non_https_scheme [] [] ⟨"agent_server", "ftp://host:21", 21⟩
    "ftp" "host:21" "abc123" (by simp) rfl rfl (by decide) (by decide) (by decide)

/-- C4: when the session credential is present (and non-empty, the source's
truthiness test), the streaming target URL has exactly one query parameter,
`session_api_key`, whose form-decoded value is the credential's UTF-8 bytes;
when the credential is absent (or empty) the URL contains no query string at
all. -/
theorem C4_session_key_query (pre post : List ExposedUrl) (e : ExposedUrl)
    (netloc cid : String) (key : Option String)
    (hpre : ∀ x ∈ pre, x.name ≠ AGENT_SERVER)
    (hname : e.name = AGENT_SERVER)
    (hurl : e.url = "http://" ++ netloc)
    (hnl : ∀ c ∈ netloc.data, ¬(c = '/' ∨ c = '?' ∨ c = '#'))
    (hcid : '?' ∉ cid.data) :
    (∀ k, key = some k → k ≠ "" →
      ∃ u, _get_agent_server_ws_url none (pre ++ e :: post) cid key = some u ∧
        ∃ q, queryChars u.data = some q ∧
          parseQSL q = [(utf8Bytes "session_api_key", utf8Bytes k)]) ∧
    (truthyKey key = false →
      ∃ u, _get_agent_server_ws_url none (pre ++ e :: post) cid key = some u ∧
        queryChars u.data = none) := by
  have hv := ws_url_value pre post e "http" netloc cid key hpre hname hurl
    (by decide) hnl
  have hbase : '?' ∉ ("ws" ++ "://" ++ netloc ++ "/sockets/events/" ++ cid).data :=
    no_qmark_ws_url "ws" netloc cid (by decide) hnl hcid
  constructor
  · rintro k rfl hk
    have htr : truthyKey (some k) = true := by simp [truthyKey, hk]
    have hval : _get_agent_server_ws_url none (pre ++ e :: post) cid (some k) =
        some (("ws" ++ "://" ++ netloc ++ "/sockets/events/" ++ cid) ++ "?" ++
          urlencodeSingle "session_api_key" k) := by
      rw [hv]
      simp only [htr]
      rfl
    refine ⟨_, hval, (urlencodeSingle "session_api_key" k).data, ?_,
      parseQSL_urlencodeSingle k⟩
    have hdata : ((("ws" ++ "://" ++ netloc ++ "/sockets/events/" ++ cid) ++ "?" ++
        urlencodeSingle "session_api_key" k)).data =
        ("ws" ++ "://" ++ netloc ++ "/sockets/events/" ++ cid).data ++
          '?' :: (urlencodeSingle "session_api_key" k).data := by
      simp [String.data_append]
    rw [hdata]
    exact queryChars_append _ _ hbase
  · intro hf
    have hval : _get_agent_server_ws_url none (pre ++ e :: post) cid key =
        some ("ws" ++ "://" ++ netloc ++ "/sockets/events/" ++ cid) := by
      rw [hv]
      simp only [hf]
      rfl
    exact ⟨_, hval, queryChars_of_no_qmark _ hbase⟩

/-- Witness for C4: the spec's concrete credential `test-api-key` yields the
single `session_api_key` parameter, and the credential-free call yields a URL
without `?`. -/
theorem C4_session_key_query_witness :
    (∃ u, _get_agent_server_ws_url none
        [⟨"agent_server", "http://localhost:33545", 33545⟩] "abc123"
        (some "test-api-key") = some u ∧
      ∃ q, queryChars u.data = some q ∧
        parseQSL q = [(utf8Bytes "session_api_key", utf8Bytes "test-api-key")]) ∧
    (∃ u, _get_agent_server_ws_url none
        [⟨"agent_server", "http://localhost:33545", 33545⟩] "abc123" none =
          some u ∧
      queryChars u.data = none) :=
  ⟨(C4_session_key_query [] [] ⟨"agent_server", "http://localhost:33545", 33545⟩
      "localhost:33545" "abc123" (some "test-api-key") (by simp) rfl rfl
      (by decide) (by decide)).1 "test-api-key" rfl (by decide),
   (C4_session_key_query [] [] ⟨"agent_server", "http://localhost:33545", 33545⟩
      "localhost:33545" "abc123" none (by simp) rfl rfl
      (by decide) (by decide)).2 rfl⟩


/-- C1, counterexample: the claim says these requests yield status 503, but
with the conversation present and the backend descriptor absent — or present
with an empty exposed-location set — the forwarder returns 404. -/
theorem C1_counterexample :
    ((http_proxy envNoSb none (fun _ => OutboundResult.otherFault) "GET" cid0
        "p" "" [] []).response.status = 404 ∧
     (http_proxy envEmptyUrls none (fun _ => OutboundResult.otherFault) "GET"
        cid0 "p" "" [] []).response.status = 404) ∧
    (404 : Nat) ≠ 503 :=
  ⟨⟨by decide, by decide⟩, by decide⟩

/-- C1, amended: for every HTTP forward request whose conversation record
exists but whose backend descriptor is absent, or present with an empty
exposed-location set, the forwarder returns status code 404 (the same
not-found response as for a missing conversation); 503 is returned only when
the exposed-location set is non-empty yet has no agent-server entry. -/
theorem C1_amended_backend_unavailable_404 (env : Env) (gw : Option String)
    (ob : OutboundRequest → OutboundResult) (method cid path query : String)
    (reqHeaders : List (String × String)) (body : List Nat) (u : Nat)
    (info : AppConversationInfo)
    (h1 : uuidParse cid = some u)
    (h2 : env.conversations u = some info)
    (h3 : ∀ sb, env.sandboxes info.sandbox_id = some sb → sb.exposed_urls = []) :
    (http_proxy env gw ob method cid path query reqHeaders body).response.status
      = 404 := by
  have hsb : (_get_sandbox_for_conversation env cid).1.1 = none := by
    rcases hcase : env.sandboxes info.sandbox_id with _ | sb
    · simp [_get_sandbox_for_conversation, h1, h2, hcase]
    · simp [_get_sandbox_for_conversation, h1, h2, hcase, h3 sb hcase]
  simp only [http_proxy, hsb]

/-- Witness for the amended C1: a conversation with an absent sandbox
descriptor gets a 404. -/
theorem C1_amended_backend_unavailable_404_witness :
    (http_proxy envNoSb none (fun _ => OutboundResult.otherFault) "GET" cid0
      "p" "" [] []).response.status = 404 :=
  C1_amended_backend_unavailable_404 envNoSb none _ "GET" cid0 "p" "" [] [] 0
    ⟨"sb1"⟩ (by decide) (by decide) (by intro sb hsb; cases hsb)

/-- C2, counterexample: the claim says the relay closes with the
try-again-later code 1013 when the exposed-location set is non-empty but has
no agent-server location; the relay actually closes with 1011. -/
theorem C2_counterexample :
    (_websocket_proxy_impl envNoAgent none (ConnectBehavior.connected [])
        cid0).outcome = WsOutcome.closed 1011 ∧
    WsOutcome.closed 1011 ≠ WsOutcome.closed 1013 :=
  ⟨by decide, by decide⟩

/-- C2, amended: for every streaming connection whose resolved backend
descriptor has a non-empty exposed-location set but contains no location named
for the primary agent service, the relay closes the inbound WebSocket with the
internal-error close code 1011 (the try-again-later code 1013 is used when the
descriptor is absent or its exposed-location set is empty). -/
theorem C2_amended_no_agent_location_1011 (env : Env) (gw : Option String)
    (connect : ConnectBehavior) (cid : String) (u : Nat)
    (info : AppConversationInfo) (sb : SandboxInfo)
    (h1 : uuidParse cid = some u)
    (h2 : env.conversations u = some info)
    (h3 : env.sandboxes info.sandbox_id = some sb)
    (h4 : sb.exposed_urls ≠ [])
    (h5 : ∀ e ∈ sb.exposed_urls, e.name ≠ AGENT_SERVER) :
    (_websocket_proxy_impl env gw connect cid).outcome =
      WsOutcome.closed 1011 := by
  have hne : sb.exposed_urls.isEmpty = false := by
    rcases hcase : sb.exposed_urls with _ | ⟨a, l⟩
    · exact absurd hcase h4
    · rfl
  simp only [_websocket_proxy_impl, h1, h2, h3, hne,
    ws_url_none gw sb.exposed_urls cid sb.session_api_key h5]
  rfl

/-- Witness for the amended C2: a sandbox exposing only a `vscode` location
gets an internal-error close. -/
theorem C2_amended_no_agent_location_1011_witness :
    (_websocket_proxy_impl envNoAgent none (ConnectBehavior.connected [])
        cid0).outcome = WsOutcome.closed 1011 :=
  C2_amended_no_agent_location_1011 envNoAgent none _ cid0 0 ⟨"sb1"⟩
    ⟨[⟨"vscode", "http://h:1", 1⟩], some "k"⟩ (by decide) (by decide)
    (by decide) (by decide) (by decide)

/-- C5: for every HTTP forward request with a resolved target, an outbound
call that exceeds the timeout yields status 504, an outbound connection
refusal yields 503, and any other outbound fault yields 500; the issued
outbound request carries the 60-unit timeout.  The embedding of `http_proxy`
is total, so no outbound fault ever propagates to the inbound caller. -/
theorem C5_fault_mapping (env : Env) (gw : Option String)
    (method cid path query : String) (reqHeaders : List (String × String))
    (body : List Nat) (sb : SandboxInfo) (bu : String)
    (h1 : (_get_sandbox_for_conversation env cid).1.1 = some sb)
    (h2 : _get_agent_server_base_url gw sb.exposed_urls = some bu) :
    (http_proxy env gw (fun _ => OutboundResult.timeout) method cid path query
        reqHeaders body).response.status = 504 ∧
    (http_proxy env gw (fun _ => OutboundResult.connectError) method cid path
        query reqHeaders body).response.status = 503 ∧
    (http_proxy env gw (fun _ => OutboundResult.otherFault) method cid path
        query reqHeaders body).response.status = 500 ∧
    (∀ ob req,
      (http_proxy env gw ob method cid path query reqHeaders body).outboundRequest
          = some req → req.timeout = 60) := by
  refine ⟨?_, ?_, ?_, ?_⟩
  · simp only [http_proxy, h1, h2]
  · simp only [http_proxy, h1, h2]
  · simp only [http_proxy, h1, h2]
  · intro ob req hreq
    simp only [http_proxy, h1, h2] at hreq
    split at hreq
    all_goals
      simp only [Option.some.injEq] at hreq
    all_goals
      cases hreq
    all_goals
      rfl

/-- Witness for C5 at a concrete resolved environment. -/
theorem C5_fault_mapping_witness :
    (http_proxy envOk none (fun _ => OutboundResult.timeout) "GET" cid0 "p" ""
        [] []).response.status = 504 ∧
    (http_proxy envOk none (fun _ => OutboundResult.connectError) "GET" cid0
        "p" "" [] []).response.status = 503 ∧
    (http_proxy envOk none (fun _ => OutboundResult.otherFault) "GET" cid0 "p"
        "" [] []).response.status = 500 ∧
    (∀ ob req,
      (http_proxy envOk none ob "GET" cid0 "p" "" [] []).outboundRequest =
          some req → req.timeout = 60) :=
  C5_fault_mapping envOk none "GET" cid0 "p" "" [] []
    ⟨[⟨"agent_server", "http://h:1", 1⟩], some "k"⟩ "http://h:1"
    (by decide) (by decide)

/-- C6: for every HTTP forward request and its response, every header whose
name matches the fixed hop-by-hop block list case-insensitively is absent from
the outbound request headers and from the returned response headers. -/
theorem C6_hop_by_hop_headers (env : Env) (gw : Option String)
    (ob : OutboundRequest → OutboundResult) (method cid path query : String)
    (reqHeaders : List (String × String)) (body : List Nat) (n : String)
    (hn : lowerString n ∈ _HOP_BY_HOP_HEADERS) :
    (∀ req,
      (http_proxy env gw ob method cid path query reqHeaders body).outboundRequest
          = some req → n ∉ req.headers.map Prod.fst) ∧
    n ∉ (http_proxy env gw ob method cid path query reqHeaders
      body).response.headers.map Prod.fst := by
  simp only [http_proxy]
  rcases h1 : (_get_sandbox_for_conversation env cid).1.1 with _ | sandbox
  · simp only [h1]
    refine ⟨fun req hreq => ?_, by simp⟩
    cases hreq
  · simp only [h1]
    rcases h2 : _get_agent_server_base_url gw sandbox.exposed_urls with _ | bu
    · simp only [h2]
      refine ⟨fun req hreq => ?_, by simp⟩
      cases hreq
    · simp only [h2]
      split
      all_goals constructor
      all_goals
        first
        | (intro req hreq
           simp only [Option.some.injEq] at hreq
           cases hreq
           exact forward_headers_blocked reqHeaders _ n hn)
        | exact copyHeadersFiltered_blocked _ n hn
        | simp

/-- Witness for C6 with the header name `Connection` on a concrete run. -/
theorem C6_hop_by_hop_headers_witness :
    (∀ req,
      (http_proxy envOk none (fun _ => OutboundResult.success 200
          [("Transfer-Encoding", "chunked"), ("X-A", "1")] "ok") "GET" cid0 "p"
          "" [("Connection", "keep-alive"), ("Accept", "text/html")]
          []).outboundRequest = some req →
        "Connection" ∉ req.headers.map Prod.fst) ∧
    "Connection" ∉ (http_proxy envOk none (fun _ => OutboundResult.success 200
        [("Transfer-Encoding", "chunked"), ("X-A", "1")] "ok") "GET" cid0 "p"
        "" [("Connection", "keep-alive"), ("Accept", "text/html")]
        []).response.headers.map Prod.fst :=
  C6_hop_by_hop_headers envOk none _ "GET" cid0 "p" ""
    [("Connection", "keep-alive"), ("Accept", "text/html")] [] "Connection"
    (by decide)

/-- C7: for every conversation identifier that does not parse as a UUID, the
streaming endpoint closes the inbound connection with the policy-violation
code 1008, the HTTP endpoint responds 404, and neither performs any
conversation or backend lookup. -/
theorem C7_invalid_id (env : Env) (gw : Option String)
    (connect : ConnectBehavior) (ob : OutboundRequest → OutboundResult)
    (method path query : String) (reqHeaders : List (String × String))
    (body : List Nat) (cid : String)
    (h : uuidParse cid = none) :
    _websocket_proxy_impl env gw connect cid =
      ⟨WsOutcome.closed 1008, false, []⟩ ∧
    (http_proxy env gw ob method cid path query reqHeaders
        body).response.status = 404 ∧
    (http_proxy env gw ob method cid path query reqHeaders body).lookups
      = [] := by
  have hs : _get_sandbox_for_conversation env cid = ((none, none), []) := by
    unfold _get_sandbox_for_conversation
    rw [h]
  refine ⟨?_, ?_, ?_⟩
  · simp only [_websocket_proxy_impl, h]
  · simp only [http_proxy, hs]
  · simp only [http_proxy, hs]

/-- Witness for C7: the identifier `abc123` is not a UUID. -/
theorem C7_invalid_id_witness :
    _websocket_proxy_impl envOk none (ConnectBehavior.connected []) "abc123" =
      ⟨WsOutcome.closed 1008, false, []⟩ ∧
    (http_proxy envOk none (fun _ => OutboundResult.otherFault) "GET" "abc123"
        "p" "" [] []).response.status = 404 ∧
    (http_proxy envOk none (fun _ => OutboundResult.otherFault) "GET" "abc123"
        "p" "" [] []).lookups = [] :=
  C7_invalid_id envOk none _ _ "GET" "p" "" [] [] "abc123" (by decide)

/-- C8: for every streaming connection on the path-prefixed route where the
prefix id differs from the conversation id, the connection is closed with the
policy-violation code 1008 and no conversation or backend lookup is
attempted. -/
theorem C8_prefix_mismatch (env : Env) (gw : Option String)
    (connect : ConnectBehavior) (rid cid : String) (h : rid ≠ cid) :
    websocket_proxy_via_runtime env gw connect rid cid =
      ⟨WsOutcome.closed 1008, false, []⟩ := by
  simp only [websocket_proxy_via_runtime, if_pos h]

/-- Witness for C8 at two concrete distinct ids. -/
theorem C8_prefix_mismatch_witness :
    websocket_proxy_via_runtime envOk none (ConnectBehavior.connected [])
        "aaa" "bbb" = ⟨WsOutcome.closed 1008, false, []⟩ :=
  C8_prefix_mismatch envOk none _ "aaa" "bbb" (by decide)

/-- The client-to-backend pump completes (without raising) whenever its read
script reaches a terminal event. -/
theorem client_pump_completes (reads : List ClientReadResult)
    (h : firstTerminal reads = some ClientReadResult.disconnect) :
    ∃ msgs, _proxy_client_to_server reads = some msgs := by
  induction reads with
  | nil => cases h
  | cons ev rest ih =>
    cases ev with
    | text s =>
      obtain ⟨m, hm⟩ := ih (by simpa [firstTerminal] using h)
      exact ⟨s :: m, by simp [_proxy_client_to_server, hm]⟩
    | disconnect => exact ⟨[], rfl⟩
    | failure => exact ⟨[], rfl⟩

/-- C9: for every streaming session in the Relaying state in which the client
disconnects first, the relay cancels the backend-to-client pump, awaits it
while suppressing the cancellation signal, and reaches the Closed state with
no thrown or unhandled fault. -/
theorem C9_client_disconnect_teardown (reads : List ClientReadResult)
    (h : firstTerminal reads = some ClientReadResult.disconnect) :
    ∃ final, _websocket_proxy_relay reads = some final ∧
      final.state = SessionState.Closed ∧
      final.serverTask = ⟨true, true⟩ ∧
      final.clientTask.ended = true ∧
      final.fault = none := by
  obtain ⟨msgs, hm⟩ := client_pump_completes reads h
  refine ⟨⟨SessionState.Closed, ⟨true, false⟩, ⟨true, true⟩, msgs, none⟩,
    ?_, rfl, rfl, rfl, rfl⟩
  simp only [_websocket_proxy_relay, hm]
  rfl

/-- Witness for C9: a session that forwards one message and then sees the
client disconnect. -/
theorem C9_client_disconnect_teardown_witness :
    ∃ final, _websocket_proxy_relay
        [ClientReadResult.text "hello", ClientReadResult.disconnect] =
          some final ∧
      final.state = SessionState.Closed ∧
      final.serverTask = ⟨true, true⟩ ∧
      final.clientTask.ended = true ∧
      final.fault = none :=
  C9_client_disconnect_teardown
    [ClientReadResult.text "hello", ClientReadResult.disconnect] (by decide)

end WsProxy
